import Mathlib

/-!
Verification development for the tuihub interaction core.

The definitions below are a shallow embedding of the Rust sources:
`src/app/state.rs` (the `App` aggregate and its methods), `src/app/update.rs`
(`refresh_filter`, tab/category cycling, and the per-key dispatch of the main
loop), `src/system/exec.rs` (`command_for_platform`), `src/system/tmux.rs`
(`sanitize_tmux_name`, `launch_in_tmux`) and `src/ui/components/log_panel.rs`
(`render_log_panel`).

Modelling conventions:
- Rust `HashSet<String>` becomes `Finset String` (unordered set semantics).
- `ListState` is reduced to its one observable field, `selected : Option Nat`.
- `std::time::Instant` values become `Nat` millisecond timestamps; the
  3-second log expiry window is the constant 3000.
- External effects (shell commands, tmux spawns) are recorded in an explicit
  effect list, and every probe of the outside world (PATH lookups, tmux
  presence, `$TMUX`, Unix timestamps, process exit statuses, rendered error
  text) is a field of an `Env` record passed in.
-/

namespace TuiHub

/-- Platform enumeration from `src/system/os.rs`. -/
inductive Platform
  | linux
  | wsl
  | mac
  | windows
  | unknown
  deriving DecidableEq

/-- Display label of a platform, from `Platform::label` in `src/system/os.rs`. -/
def Platform.label : Platform → String
  | .linux => "Linux"
  | .wsl => "WSL"
  | .mac => "macOS"
  | .windows => "Windows"
  | .unknown => "Unknown"

/-- Per-platform command strings, from `InstallCommands` in `src/registry/model.rs`. -/
structure InstallCommands where
  linux : String
  wsl : String
  mac : String
  windows : String
  deriving DecidableEq

/-- One catalog entry, from `AppEntry` in `src/registry/model.rs`. -/
structure AppEntry where
  id : String
  name : String
  description : String
  category : String
  repo : String
  binary : String
  install : InstallCommands
  uninstall : InstallCommands
  deriving DecidableEq

/-- ASCII lower-casing of one character, mirroring Rust `u8::to_ascii_lowercase`
applied through `char::to_ascii_lowercase`. -/
def asciiLowerChar (c : Char) : Char :=
  if 'A' ≤ c ∧ c ≤ 'Z' then Char.ofNat (c.toNat + 32) else c

/-- ASCII lower-casing of a string, mirroring Rust `str::to_ascii_lowercase`. -/
def asciiLower (s : String) : String :=
  ⟨s.data.map asciiLowerChar⟩

/-- Unicode `White_Space` test, mirroring Rust `char::is_whitespace`. -/
def isRustWhitespace (c : Char) : Bool :=
  decide ((0x09 ≤ c.toNat ∧ c.toNat ≤ 0x0D) ∨ c.toNat = 0x20 ∨ c.toNat = 0x85 ∨
    c.toNat = 0xA0 ∨ c.toNat = 0x1680 ∨ (0x2000 ≤ c.toNat ∧ c.toNat ≤ 0x200A) ∨
    c.toNat = 0x2028 ∨ c.toNat = 0x2029 ∨ c.toNat = 0x202F ∨ c.toNat = 0x205F ∨
    c.toNat = 0x3000)

/-- Test embedding Rust `s.trim().is_empty()`: a string trims to empty exactly
when every character is whitespace. -/
def trimIsEmpty (s : String) : Bool :=
  s.data.all isRustWhitespace

/-- Substring containment, mirroring Rust `str::contains(&str)`. -/
def strContains (hay needle : String) : Bool :=
  decide (List.IsInfix needle.data hay.data)

/-- Case-insensitive ASCII string equality, mirroring Rust
`str::eq_ignore_ascii_case`. -/
def eqIgnoreAsciiCase (a b : String) : Bool :=
  asciiLower a == asciiLower b

/-- Log severity, from `LogLevel` in `src/app/state.rs`. -/
inductive LogLevel
  | success
  | error
  | info
  deriving DecidableEq

/-- One transient log record, from `LogEntry` in `src/app/state.rs`;
`created_at` is a millisecond timestamp standing in for `Instant`. -/
structure LogEntry where
  message : String
  level : LogLevel
  created_at : Nat
  deriving DecidableEq

/-- The mutable core state, from `App` in `src/app/state.rs`. `list_state`
keeps only the `selected` index of ratatui's `ListState`; `confirm_action`
models `Option<ConfirmAction>` whose single variant `Uninstall` wraps the
pending target list. -/
structure App where
  entries : List AppEntry
  installed_ids : Finset String
  selected_tab : Nat
  categories : List String
  selected_category : Nat
  filtered_indices : List Nat
  list_state : Option Nat
  selected_ids : Finset String
  search_mode : Bool
  search_input : String
  status : String
  platform : Platform
  confirm_mode : Bool
  confirm_action : Option (List AppEntry)
  confirm_selected : Bool
  logs : List LogEntry

/-- Membership test from `App::is_installed` in `src/app/state.rs`. -/
def App.is_installed (app : App) (entry : AppEntry) : Bool :=
  decide (entry.id ∈ app.installed_ids)

/-- Focused entry lookup from `App::current_entry` in `src/app/state.rs`. -/
def App.current_entry (app : App) : Option AppEntry := do
  let idx ← app.list_state
  let entry_idx ← app.filtered_indices.get? idx
  app.entries.get? entry_idx

/-- Tab predicate from `App::matches_tab` in `src/app/state.rs`. -/
def App.matches_tab (app : App) (entry : AppEntry) : Bool :=
  match app.selected_tab with
  | 0 => true
  | 1 => app.is_installed entry
  | 2 => ((app.categories.get? app.selected_category).map
      fun cat => eqIgnoreAsciiCase entry.category cat).getD true
  | _ => true

/-- Search predicate from `App::matches_search` in `src/app/state.rs`. -/
def App.matches_search (app : App) (entry : AppEntry) : Bool :=
  if trimIsEmpty app.search_input then true
  else
    let needle := asciiLower app.search_input
    strContains (asciiLower entry.name) needle ||
      strContains (asciiLower entry.description) needle ||
      strContains (asciiLower entry.category) needle ||
      strContains (asciiLower entry.id) needle

/-- Cursor repair of `refresh_filter` in `src/app/update.rs`: the three match
arms `Some(idx) if idx < len`, `_ if is_empty`, `_`. -/
def repairCursor (sel : Option Nat) (len : Nat) : Option Nat :=
  match sel with
  | some idx => if idx < len then some idx else if len = 0 then none else some 0
  | none => if len = 0 then none else some 0

/-- Filter recomputation from `refresh_filter` in `src/app/update.rs`:
enumerate the entries, keep those passing both predicates, project the
indices, then repair the cursor. -/
def refresh_filter (app : App) : App :=
  let fi := ((app.entries.enum.filter fun p => app.matches_tab p.2).filter
      fun p => app.matches_search p.2).map Prod.fst
  { app with
    filtered_indices := fi
    list_state := repairCursor app.list_state fi.length }

/-- Status line update from `App::set_status` in `src/app/state.rs`. -/
def App.set_status (app : App) (message : String) : App :=
  { app with status := message }

/-- Expiry window of the transient log: 3 seconds, in the millisecond
timestamps of this embedding. -/
def logExpiryMs : Nat := 3000

/-- Log append from `App::log` in `src/app/state.rs`: prune entries at least
3 seconds old, push the new entry, then drop the oldest if the queue holds
more than 3. -/
def App.log (app : App) (now : Nat) (message : String) (level : LogLevel) : App :=
  let kept := app.logs.filter fun l => now - l.created_at < logExpiryMs
  let pushed := kept ++ [⟨message, level, now⟩]
  { app with logs := if 3 < pushed.length then pushed.drop 1 else pushed }

/-- Lazy prune-and-display step of `render_log_panel` in
`src/ui/components/log_panel.rs`: the panel retains only live entries and
displays exactly the retained list (nothing when it is empty). -/
def renderLogPanel (now : Nat) (app : App) : App × List LogEntry :=
  let kept := app.logs.filter fun l => now - l.created_at < logExpiryMs
  ({ app with logs := kept }, kept)

/-- Downward wrap-around step from `App::move_down` in `src/app/state.rs`. -/
def App.move_down (app : App) : App :=
  if app.filtered_indices.isEmpty then { app with list_state := none }
  else
    let next :=
      match app.list_state with
      | some i => if i + 1 < app.filtered_indices.length then i + 1 else 0
      | none => 0
    { app with list_state := some next }

/-- Upward wrap-around step from `App::move_up` in `src/app/state.rs`;
`saturating_sub` on a positive index is plain truncated subtraction. -/
def App.move_up (app : App) : App :=
  if app.filtered_indices.isEmpty then { app with list_state := none }
  else
    let prev :=
      match app.list_state with
      | some 0 => app.filtered_indices.length - 1
      | none => app.filtered_indices.length - 1
      | some i => i - 1
    { app with list_state := some prev }

/-- Selection toggle from `App::toggle_selected_current` in
`src/app/state.rs`. -/
def App.toggle_selected_current (app : App) : App :=
  match app.current_entry with
  | none => app
  | some entry =>
      if entry.id ∈ app.selected_ids then
        { app with selected_ids := app.selected_ids.erase entry.id }
      else
        { app with selected_ids := insert entry.id app.selected_ids }

/-- Target resolution from `App::selected_entries` in `src/app/state.rs`:
entries whose id is checked, in catalog order, falling back to the focused
entry when that filtered list is empty. -/
def App.selected_entries (app : App) : List AppEntry :=
  let results := app.entries.filter fun e => decide (e.id ∈ app.selected_ids)
  if results.isEmpty then
    match app.current_entry with
    | some e => [e]
    | none => []
  else results

/-- Selection reset from `App::clear_selection` in `src/app/state.rs`. -/
def App.clear_selection (app : App) : App :=
  { app with selected_ids := ∅ }

/-- Forward tab cycle from `cycle_tab_right` in `src/app/update.rs`; there are
three tabs. -/
def cycle_tab_right (app : App) : App :=
  refresh_filter { app with selected_tab := (app.selected_tab + 1) % 3 }

/-- Backward tab cycle from `cycle_tab_left` in `src/app/update.rs`. -/
def cycle_tab_left (app : App) : App :=
  refresh_filter
    { app with selected_tab := if app.selected_tab = 0 then 2 else app.selected_tab - 1 }

/-- Forward category cycle from `category_right` in `src/app/update.rs`. -/
def category_right (app : App) : App :=
  if app.selected_tab ≠ 2 ∨ app.categories.isEmpty then app
  else
    refresh_filter
      { app with selected_category := (app.selected_category + 1) % app.categories.length }

/-- Backward category cycle from `category_left` in `src/app/update.rs`. -/
def category_left (app : App) : App :=
  if app.selected_tab ≠ 2 ∨ app.categories.isEmpty then app
  else
    refresh_filter
      { app with selected_category :=
          if app.selected_category = 0 then app.categories.length - 1
          else app.selected_category - 1 }

/-- Platform command lookup from `command_for_platform` in
`src/system/exec.rs`: `Unknown` yields nothing, a whitespace-only command
yields nothing, otherwise the raw string. -/
def command_for_platform (commands : InstallCommands) (platform : Platform) : Option String :=
  let cmd? : Option String :=
    match platform with
    | .linux => some commands.linux
    | .wsl => some commands.wsl
    | .mac => some commands.mac
    | .windows => some commands.windows
    | .unknown => none
  match cmd? with
  | none => none
  | some cmd => if trimIsEmpty cmd then none else some cmd

/-- ASCII alphanumeric test, mirroring Rust `char::is_ascii_alphanumeric`. -/
def isAsciiAlphanum (c : Char) : Bool :=
  (decide ('a' ≤ c) && decide (c ≤ 'z')) ||
    (decide ('A' ≤ c) && decide (c ≤ 'Z')) ||
    (decide ('0' ≤ c) && decide (c ≤ '9'))

/-- Per-character replacement step of `sanitize_tmux_name` in
`src/system/tmux.rs`. -/
def sanitizeChar (c : Char) : Char :=
  if isAsciiAlphanum c || c == '-' || c == '_' then c else '-'

/-- Both-ends hyphen trim, mirroring `str::trim_matches('-')`. -/
def trimHyphens (l : List Char) : List Char :=
  ((l.dropWhile fun c => c == '-').reverse.dropWhile fun c => c == '-').reverse

/-- Session-name sanitizer from `sanitize_tmux_name` in `src/system/tmux.rs`:
replace every character outside `[A-Za-z0-9_-]` with a hyphen, trim hyphens
from both ends, and fall back to `"app"` when nothing remains. -/
def sanitize_tmux_name (input : String) : String :=
  let out := input.data.map sanitizeChar
  let trimmed := trimHyphens out
  if trimmed.isEmpty then "app" else ⟨trimmed⟩

/-- Remediation hint from `tmux_install_hint` in `src/system/tmux.rs`. -/
def tmux_install_hint : Platform → String
  | .linux => "Install tmux: sudo apt install tmux"
  | .wsl => "Install tmux: sudo apt install tmux"
  | .mac => "Install tmux: brew install tmux"
  | .windows => "Install tmux in WSL, then run TUIHub inside WSL terminal."
  | .unknown => "Install tmux for your platform."

/-- Environment of external observations consumed by one dispatch step: PATH
probes, tmux discovery, the `$TMUX` variable, the Unix timestamp used for
session names, per-command exit success, the rendered error text of a failed
command or tmux spawn, and the current instant for log timestamps. -/
structure Env where
  binOnPath : String → Bool
  hasTmux : Bool
  inTmux : Bool
  timestamp : Int
  runOk : String → Bool
  tmuxOk : String → Bool
  errText : String → String
  now : Nat

/-- External commands a dispatch step spawns, in order: a shell string run
through `run_install_cmd`, or a tmux `new-window` / `new-session` spawn from
`launch_in_tmux`. -/
inductive Effect
  | shell (cmd : String) (platform : Platform)
  | tmuxNewWindow (name binary : String)
  | tmuxNewSession (name binary : String)
  deriving DecidableEq

/-- Installed-set rebuild from `App::refresh_installed_cache` in
`src/app/state.rs`, with the PATH probe supplied by the environment. -/
def App.refresh_installed_cache (app : App) (env : Env) : App :=
  { app with
    installed_ids :=
      ((app.entries.filter fun e => env.binOnPath e.binary).map fun e => e.id).toFinset }

/-- Launcher from `launch_in_tmux` in `src/system/tmux.rs`: inside a tmux
session open a window named `th-<sanitized>-<timestamp>`, otherwise create a
detached session named `tuihub-<sanitized>-<timestamp>`; the result string
carries a `session:` or `window:` tag exactly as the Rust code formats it. -/
def launch_in_tmux (env : Env) (entry : AppEntry) : Except String String × List Effect :=
  let safe_name := sanitize_tmux_name entry.id
  if env.inTmux then
    let window_name := "th-" ++ safe_name ++ "-" ++ toString env.timestamp
    (if env.tmuxOk window_name then .ok ("window:" ++ window_name)
     else .error (env.errText window_name),
     [.tmuxNewWindow window_name entry.binary])
  else
    let session_name := "tuihub-" ++ safe_name ++ "-" ++ toString env.timestamp
    (if env.tmuxOk session_name then .ok ("session:" ++ session_name)
     else .error (env.errText session_name),
     [.tmuxNewSession session_name entry.binary])

/-- Key codes dispatched by the main loop in `src/app/update.rs`; only the
codes that loop inspects are modelled. -/
inductive Key
  | char (c : Char)
  | enter
  | esc
  | backspace
  | left
  | right
  | up
  | down
  | tab
  | backTab
  deriving DecidableEq

/-- Launch-result reporting shared by the Enter and `l`/`L` branches of `run`
in `src/app/update.rs`: strip a `session:` or `window:` tag and emit the
matching log entry and status line. -/
def reportLaunch (env : Env) (app : App) (target_name : String)
    (r : Except String String) : App :=
  match r with
  | .ok target_loc =>
      if target_loc.startsWith "session:" then
        let session_name := target_loc.drop 8
        (app.log env.now ("Session '" ++ session_name ++ "' opened") .info).set_status
          ("Launched " ++ target_name ++ " in tmux session '" ++ session_name ++
            "'. Attach: tmux attach -t " ++ session_name)
      else if target_loc.startsWith "window:" then
        let window_name := target_loc.drop 7
        (app.log env.now ("Window '" ++ window_name ++ "' opened") .info).set_status
          ("Launched " ++ target_name ++ " in tmux window '" ++ window_name ++ "'.")
      else
        (app.log env.now ("Launched " ++ target_name) .info).set_status
          ("Launched " ++ target_name ++ " in tmux.")
  | .error e =>
      (app.log env.now ("Error: " ++ e) .error).set_status
        ("Launch failed for " ++ target_name ++ ": " ++ e)

/-- Quick-launch of the focused entry: the `KeyCode::Enter` branch of the
normal-mode match in `run` (`src/app/update.rs`). -/
def quickLaunch (env : Env) (app : App) : App × List Effect :=
  match app.list_state with
  | none => (app.set_status "No app focused to launch.", [])
  | some idx =>
    match app.filtered_indices.get? idx with
    | none => (app.set_status "No app focused to launch.", [])
    | some entry_idx =>
      match app.entries.get? entry_idx with
      | none => (app.set_status "No app focused to launch.", [])
      | some target =>
        if ¬ env.hasTmux then
          (app.set_status ("tmux is required for launch. " ++ tmux_install_hint app.platform),
            [])
        else if ¬ app.is_installed target then
          (app.set_status (target.name ++ " is not installed. Press I to install."), [])
        else
          let lr := launch_in_tmux env target
          (reportLaunch env app target.name lr.1, lr.2)

/-- Per-target body of the `l`/`L` launch loop in `run`
(`src/app/update.rs`). -/
def launchOne (env : Env) (target : AppEntry) (acc : App × List Effect) :
    App × List Effect :=
  let app := acc.1
  if ¬ app.is_installed target then
    ((app.set_status (target.name ++ " is not installed yet. Install first.")).log env.now
        (target.name ++ " not installed") .info,
      acc.2)
  else
    let lr := launch_in_tmux env target
    (reportLaunch env app target.name lr.1, acc.2 ++ lr.2)

/-- Batch launch: the `KeyCode::Char('l') | KeyCode::Char('L')` branch of
`run` in `src/app/update.rs`, including its own target resolution. -/
def launchAction (env : Env) (app : App) : App × List Effect :=
  let targets : List AppEntry :=
    if app.selected_ids = ∅ then
      match app.list_state with
      | some idx =>
          ((app.filtered_indices.get? idx).bind fun entry_idx =>
            app.entries.get? entry_idx).toList
      | none => []
    else app.selected_entries
  if targets.isEmpty then (app.set_status "No app selected or focused to launch.", [])
  else if ¬ env.hasTmux then
    (app.set_status ("tmux is required for launch. " ++ tmux_install_hint app.platform), [])
  else targets.foldl (fun acc t => launchOne env t acc) (app, [])

/-- Per-target body of the `i`/`I` install loop in `run`
(`src/app/update.rs`). -/
def installOne (env : Env) (target : AppEntry) (acc : App × List Effect) :
    App × List Effect :=
  let app := acc.1
  if app.is_installed target then
    ((app.set_status (target.name ++ " already installed")).log env.now
        (target.name ++ " already installed") .info,
      acc.2)
  else
    match command_for_platform target.install app.platform with
    | some cmd =>
      if ¬ trimIsEmpty cmd then
        let app1 := app.set_status ("Installing " ++ target.name ++ " using: " ++ cmd)
        if env.runOk cmd then
          ((app1.log env.now ("Installed " ++ target.name) .success).set_status
              ("Installed " ++ target.name ++ " successfully."),
            acc.2 ++ [.shell cmd app.platform])
        else
          ((app1.log env.now ("Error: " ++ env.errText cmd) .error).set_status
              ("Install failed for " ++ target.name ++ ": " ++ env.errText cmd),
            acc.2 ++ [.shell cmd app.platform])
      else
        (app.set_status ("No install command defined for " ++ target.name ++ " on " ++
            app.platform.label ++ "."),
          acc.2)
    | none =>
        (app.set_status ("No install command defined for " ++ target.name ++ " on " ++
            app.platform.label ++ "."),
          acc.2)

/-- Batch install: the `KeyCode::Char('i') | KeyCode::Char('I')` branch of
`run` in `src/app/update.rs`, ending with one cache refresh and one filter
recompute. -/
def installAction (env : Env) (app : App) : App × List Effect :=
  let targets := app.selected_entries
  if targets.isEmpty then (app.set_status "No app selected to install.", [])
  else if app.platform = .unknown then
    (app.set_status "Unknown platform. Cannot install.", [])
  else
    let r := targets.foldl (fun acc t => installOne env t acc) (app, [])
    (refresh_filter (r.1.refresh_installed_cache env), r.2)

/-- Subset of resolved targets that are both installed and have a non-blank
uninstall command for the active platform: the `installed_targets` filter of
the `u`/`U` branch of `run` in `src/app/update.rs`. -/
def qualifyingTargets (app : App) : List AppEntry :=
  (app.selected_entries.filter fun t => app.is_installed t).filter fun t =>
    match command_for_platform t.uninstall app.platform with
    | some cmd => !trimIsEmpty cmd
    | none => false

/-- Uninstall request: the `KeyCode::Char('u') | KeyCode::Char('U')` branch
of `run` in `src/app/update.rs`, up to (but not including) the confirmation
dialog's own key handling. -/
def uninstallRequest (env : Env) (app : App) : App :=
  let targets := app.selected_entries
  if targets.isEmpty then app.set_status "No app selected to uninstall."
  else if app.platform = .unknown then
    app.set_status "Unknown platform. Cannot uninstall."
  else
    let installed_targets := qualifyingTargets app
    if installed_targets.isEmpty then
      let not_installed := (targets.filter fun t => !app.is_installed t).map fun t => t.name
      if ¬ not_installed.isEmpty then
        (app.set_status (String.intercalate ", " not_installed ++ " not installed.")).log
          env.now (String.intercalate ", " not_installed ++ " not installed") .info
      else
        app.set_status "No uninstall command defined for selected apps on this platform."
    else
      { app with
        confirm_mode := true
        confirm_selected := true
        confirm_action := some installed_targets
        status := "Press Enter to confirm uninstall, Esc to cancel." }

/-- Per-target body of the confirmed-uninstall loop in the confirm-mode
`KeyCode::Enter` branch of `run` (`src/app/update.rs`); a target whose
command resolves to `None` is skipped silently. -/
def uninstallOne (env : Env) (target : AppEntry) (acc : App × List Effect) :
    App × List Effect :=
  let app := acc.1
  match command_for_platform target.uninstall app.platform with
  | none => acc
  | some uninstall_cmd =>
    let app1 := app.set_status ("Uninstalling " ++ target.name ++ " using: " ++ uninstall_cmd)
    if env.runOk uninstall_cmd then
      ((app1.log env.now ("Uninstalled " ++ target.name) .success).set_status
          ("Uninstalled " ++ target.name ++ " successfully."),
        acc.2 ++ [.shell uninstall_cmd app.platform])
    else
      ((app1.log env.now ("Error: " ++ env.errText uninstall_cmd) .error).set_status
          ("Uninstall failed for " ++ target.name ++ ": " ++ env.errText uninstall_cmd),
        acc.2 ++ [.shell uninstall_cmd app.platform])

/-- Confirm-mode key handling of `run` in `src/app/update.rs`: Enter commits
(executing the batch when the affirmative choice is selected, else
cancelling), Left/`h` select the `confirm_selected = true` choice, Right/`l`
select `false`, Esc/`q` cancel, anything else is ignored. -/
def confirmStep (env : Env) (app : App) (key : Key) : App × List Effect :=
  match key with
  | .enter =>
    if app.confirm_selected then
      match app.confirm_action with
      | some targets =>
        let app1 := { app with confirm_mode := false, confirm_action := none }
        let r := targets.foldl (fun acc t => uninstallOne env t acc) (app1, [])
        (refresh_filter (r.1.refresh_installed_cache env), r.2)
      | none => (app, [])
    else
      ({ app with
          confirm_mode := false
          confirm_action := none
          status := "Uninstall cancelled." }, [])
  | .left => ({ app with confirm_selected := true }, [])
  | .char 'h' => ({ app with confirm_selected := true }, [])
  | .right => ({ app with confirm_selected := false }, [])
  | .char 'l' => ({ app with confirm_selected := false }, [])
  | .esc => ({ app with
      confirm_mode := false
      confirm_action := none
      status := "Uninstall cancelled." }, [])
  | .char 'q' => ({ app with
      confirm_mode := false
      confirm_action := none
      status := "Uninstall cancelled." }, [])
  | _ => (app, [])

/-- Search-mode key handling of `run` in `src/app/update.rs`: Esc leaves
search mode, Enter leaves it with an applied-search status, Backspace pops
one character and recomputes, a non-control character appends and
recomputes, anything else is ignored. -/
def searchStep (app : App) (key : Key) (ctrl : Bool) : App :=
  match key with
  | .esc => { app with search_mode := false }
  | .enter =>
      { app with
        search_mode := false
        status := "Search applied: '" ++ app.search_input ++ "'" }
  | .backspace => refresh_filter { app with search_input := ⟨app.search_input.data.dropLast⟩ }
  | .char c =>
      if ¬ ctrl then refresh_filter { app with search_input := app.search_input.push c }
      else app
  | _ => app

/-- Normal-mode key handling of `run` in `src/app/update.rs`. The quit keys
(`q`, Ctrl-`c`) break the loop without mutating state and are modelled as
identity. -/
def normalStep (env : Env) (app : App) (key : Key) (ctrl : Bool) : App × List Effect :=
  match key with
  | .char 'q' => (app, [])
  | .down => (app.move_down, [])
  | .char 'j' => (app.move_down, [])
  | .up => (app.move_up, [])
  | .char 'k' => (app.move_up, [])
  | .tab => (cycle_tab_right app, [])
  | .backTab => (cycle_tab_left app, [])
  | .left => (category_left app, [])
  | .right => (category_right app, [])
  | .char ' ' => (app.toggle_selected_current, [])
  | .char '/' => ({ app with search_mode := true }, [])
  | .esc =>
      (if app.search_input = "" then app
       else (refresh_filter { app with search_input := "" }).set_status "Search cleared.",
        [])
  | .char 'c' => (if ctrl then app else app.clear_selection, [])
  | .char 'C' => (app.clear_selection, [])
  | .enter => quickLaunch env app
  | .char '\r' => quickLaunch env app
  | .char 'i' => installAction env app
  | .char 'I' => installAction env app
  | .char 'u' => (uninstallRequest env app, [])
  | .char 'U' => (uninstallRequest env app, [])
  | .char 'l' => launchAction env app
  | .char 'L' => launchAction env app
  | _ => (app, [])

/-- One key-press dispatch of `run` in `src/app/update.rs`: search mode is
checked first, then confirm mode, then the normal-mode match. -/
def step (env : Env) (app : App) (key : Key) (ctrl : Bool) : App × List Effect :=
  if app.search_mode then (searchStep app key ctrl, [])
  else if app.confirm_mode then confirmStep env app key
  else normalStep env app key ctrl

/-- Search hit across the four searched fields, spelled as the specification
words it: the lower-cased query occurs in the lower-cased name, description,
category, or id. -/
def searchHit (q : String) (e : AppEntry) : Prop :=
  strContains (asciiLower e.name) (asciiLower q) = true ∨
    strContains (asciiLower e.description) (asciiLower q) = true ∨
    strContains (asciiLower e.category) (asciiLower q) = true ∨
    strContains (asciiLower e.id) (asciiLower q) = true

/-- Sanitizer as the specification words it, for comparison with the code's
`sanitize_tmux_name`: replace each disallowed character with a hyphen,
collapse consecutive hyphens, trim leading/trailing hyphens, and fall back
to the fixed token when nothing remains. -/
def sanitizeSpecCollapse (input : String) : String :=
  let replaced := input.data.map sanitizeChar
  let collapsed := replaced.foldr
    (fun c acc => if c = '-' ∧ acc.head? = some '-' then acc else c :: acc) []
  let trimmed := trimHyphens collapsed
  if trimmed.isEmpty then "app" else ⟨trimmed⟩

/-- Sample catalog entry used to instantiate theorems at concrete states. -/
def xEntry : AppEntry :=
  { id := "x"
    name := "X Control"
    description := "controls x"
    category := "tools"
    repo := "https://example.com/x"
    binary := "xctl"
    install := { linux := "apt install xctl", wsl := "", mac := "", windows := "" }
    uninstall := { linux := "apt remove xctl", wsl := "", mac := "", windows := "" } }

/-- Sample state: one-entry catalog, nothing installed, nothing selected,
cursor on the only entry, normal mode, linux platform. -/
def baseApp : App :=
  { entries := [xEntry]
    installed_ids := ∅
    selected_tab := 0
    categories := ["tools"]
    selected_category := 0
    filtered_indices := [0]
    list_state := some 0
    selected_ids := ∅
    search_mode := false
    search_input := ""
    status := ""
    platform := .linux
    confirm_mode := false
    confirm_action := none
    confirm_selected := false
    logs := [] }

/-- Sample environment: tmux present, not inside a tmux session, every
command succeeds, no binary on PATH. -/
def baseEnv : Env :=
  { binOnPath := fun _ => false
    hasTmux := true
    inTmux := false
    timestamp := 0
    runOk := fun _ => true
    tmuxOk := fun _ => true
    errText := fun _ => "command failed with status exit status: 1"
    now := 0 }

/-- Sample state on an unknown platform with the sample entry installed. -/
def uApp : App :=
  { baseApp with platform := .unknown, installed_ids := {"x"} }

/-- Sample state on linux with the sample entry installed. -/
def qApp : App :=
  { baseApp with installed_ids := {"x"} }

/-- Sample state whose selection set holds an id matching no entry. -/
def gApp : App :=
  { baseApp with selected_ids := {"ghost"} }

/-- Sample state in search-editing mode with an empty committed query. -/
def sApp : App :=
  { baseApp with search_mode := true }

/-- Sample state whose selection set holds the sample entry's id. -/
def selApp : App :=
  { baseApp with selected_ids := {"x"} }

/-- Sample state inside the confirmation dialog with the negative choice
currently selected and the sample entry pending uninstall. -/
def cApp : App :=
  { baseApp with
    installed_ids := {"x"}
    confirm_mode := true
    confirm_selected := false
    confirm_action := some [xEntry] }

/-- Equivalence of the code's search predicate with the specification's
wording of it. -/
theorem matches_search_eq_spec (app : App) (e : AppEntry) :
    app.matches_search e = true ↔
      (if trimIsEmpty app.search_input = true then True
       else searchHit app.search_input e) := by
  unfold App.matches_search searchHit
  by_cases h : trimIsEmpty app.search_input = true
  · simp [h]
  · simp only [Bool.not_eq_true] at h
    simp [h, Bool.or_eq_true, or_assoc]

/-- C1: after a `refresh_filter` recompute, for every state,
`filtered_indices` is a strictly increasing subsequence of the catalog index
range and contains exactly the indices of entries satisfying both the tab
predicate and the search predicate (true on a blank trimmed query, otherwise
the lower-cased query must occur in the lower-cased name, description,
category, or id). -/
theorem C1_filtered_indices_exact (app : App) :
    List.Sublist (refresh_filter app).filtered_indices (List.range app.entries.length) ∧
    (refresh_filter app).filtered_indices.Pairwise (· < ·) ∧
    (∀ i : Nat, i ∈ (refresh_filter app).filtered_indices ↔
      ∃ e, app.entries[i]? = some e ∧ app.matches_tab e = true ∧
        (if trimIsEmpty app.search_input = true then True
         else searchHit app.search_input e)) := by
  have hfi : (refresh_filter app).filtered_indices
      = ((app.entries.enum.filter fun p => app.matches_tab p.2).filter
          fun p => app.matches_search p.2).map Prod.fst := rfl
  have hsub : List.Sublist (refresh_filter app).filtered_indices
      (List.range app.entries.length) := by
    rw [hfi, ← List.enum_map_fst app.entries]
    exact ((List.filter_sublist _).trans (List.filter_sublist _)).map Prod.fst
  refine ⟨hsub, (List.pairwise_lt_range _).sublist hsub, ?_⟩
  intro i
  rw [hfi]
  constructor
  · intro hi
    obtain ⟨p, hp, hpi⟩ := List.mem_map.mp hi
    obtain ⟨hp1, hps⟩ := List.mem_filter.mp hp
    obtain ⟨hpen, hpt⟩ := List.mem_filter.mp hp1
    subst hpi
    exact ⟨p.2, List.mem_enum_iff_getElem?.mp hpen, hpt,
      (matches_search_eq_spec app p.2).mp hps⟩
  · rintro ⟨e, he, htab, hsearch⟩
    exact List.mem_map.mpr ⟨(i, e), List.mem_filter.mpr ⟨List.mem_filter.mpr
      ⟨List.mem_enum_iff_getElem?.mpr he, htab⟩,
      (matches_search_eq_spec app e).mpr hsearch⟩, rfl⟩

/-- Witness instantiating the C1 theorem at the sample state. -/
theorem C1_witness :
    List.Sublist (refresh_filter baseApp).filtered_indices
      (List.range baseApp.entries.length) ∧
    (refresh_filter baseApp).filtered_indices.Pairwise (· < ·) ∧
    (∀ i : Nat, i ∈ (refresh_filter baseApp).filtered_indices ↔
      ∃ e, baseApp.entries[i]? = some e ∧ baseApp.matches_tab e = true ∧
        (if trimIsEmpty baseApp.search_input = true then True
         else searchHit baseApp.search_input e)) :=
  C1_filtered_indices_exact baseApp

/-- Characterization of when the cursor repair yields no cursor. -/
theorem repairCursor_none_iff (sel : Option Nat) (len : Nat) :
    repairCursor sel len = none ↔ len = 0 := by
  cases sel with
  | none => by_cases h : len = 0 <;> simp [repairCursor, h]
  | some idx =>
    by_cases h1 : idx < len
    · simp [repairCursor, h1]
      omega
    · by_cases h : len = 0 <;> simp [repairCursor, h1, h]

/-- Validity of any cursor the repair produces. -/
theorem repairCursor_lt (sel : Option Nat) (len i : Nat)
    (h : repairCursor sel len = some i) : i < len := by
  cases sel with
  | none =>
    by_cases h0 : len = 0 <;> simp [repairCursor, h0] at h <;> omega
  | some idx =>
    by_cases h1 : idx < len
    · simp [repairCursor, h1] at h
      omega
    · by_cases h0 : len = 0 <;> simp [repairCursor, h1, h0] at h <;> omega

/-- C2: cursor repair after recompute keeps an in-bounds previous cursor,
clears it when the new filtered sequence is empty, and resets it to index 0
otherwise; consequently the cursor is `none` iff `filtered_indices` is empty
and is otherwise a valid index into it. -/
theorem C2_cursor_repair (app : App) :
    (∀ idx, app.list_state = some idx →
      idx < (refresh_filter app).filtered_indices.length →
      (refresh_filter app).list_state = some idx) ∧
    ((refresh_filter app).filtered_indices = [] →
      (refresh_filter app).list_state = none) ∧
    ((refresh_filter app).filtered_indices ≠ [] →
      (app.list_state = none → (refresh_filter app).list_state = some 0) ∧
      (∀ idx, app.list_state = some idx →
        ¬ idx < (refresh_filter app).filtered_indices.length →
        (refresh_filter app).list_state = some 0)) ∧
    ((refresh_filter app).list_state = none ↔
      (refresh_filter app).filtered_indices = []) ∧
    (∀ i, (refresh_filter app).list_state = some i →
      i < (refresh_filter app).filtered_indices.length) := by
  have hls : (refresh_filter app).list_state
      = repairCursor app.list_state (refresh_filter app).filtered_indices.length := rfl
  refine ⟨?_, ?_, ?_, ?_, ?_⟩
  · intro idx hsel hlt
    rw [hls, hsel]
    simp [repairCursor, hlt]
  · intro hempty
    rw [hls]
    exact (repairCursor_none_iff _ _).mpr (by simp [hempty])
  · intro hne
    have hlen : (refresh_filter app).filtered_indices.length ≠ 0 := by
      simpa [List.length_eq_zero] using hne
    constructor
    · intro hnone
      rw [hls, hnone]
      simp [repairCursor, hlen]
    · intro idx hsel hnlt
      rw [hls, hsel]
      simp [repairCursor, hnlt, hlen]
  · constructor
    · intro hnone
      exact List.length_eq_zero.mp
        ((repairCursor_none_iff app.list_state _).mp (hls.symm.trans hnone))
    · intro hempty
      rw [hls]
      exact (repairCursor_none_iff _ _).mpr (by simp [hempty])
  · intro i hi
    exact repairCursor_lt _ _ _ (hls.symm.trans hi)

/-- Witness instantiating the C2 theorem at the sample state. -/
theorem C2_witness :
    (∀ idx, baseApp.list_state = some idx →
      idx < (refresh_filter baseApp).filtered_indices.length →
      (refresh_filter baseApp).list_state = some idx) ∧
    ((refresh_filter baseApp).filtered_indices = [] →
      (refresh_filter baseApp).list_state = none) ∧
    ((refresh_filter baseApp).filtered_indices ≠ [] →
      (baseApp.list_state = none → (refresh_filter baseApp).list_state = some 0) ∧
      (∀ idx, baseApp.list_state = some idx →
        ¬ idx < (refresh_filter baseApp).filtered_indices.length →
        (refresh_filter baseApp).list_state = some 0)) ∧
    ((refresh_filter baseApp).list_state = none ↔
      (refresh_filter baseApp).filtered_indices = []) ∧
    (∀ i, (refresh_filter baseApp).list_state = some i →
      i < (refresh_filter baseApp).filtered_indices.length) :=
  C2_cursor_repair baseApp

/-- Length bound for the queue produced by one append, given the pre-push
pruned list. -/
theorem logPush_length_le (kept : List LogEntry) (x : LogEntry) (h : kept.length ≤ 3) :
    (if 3 < (kept ++ [x]).length then (kept ++ [x]).drop 1 else kept ++ [x]).length ≤ 3 := by
  by_cases h3 : 3 < (kept ++ [x]).length
  · rw [if_pos h3, List.length_drop]
    simp only [List.length_append, List.length_singleton] at h3 ⊢
    omega
  · rw [if_neg h3]
    simp only [List.length_append, List.length_singleton] at h3 ⊢
    omega

/-- C9: a log append never leaves more than 3 entries in the queue, and the
log panel never displays an entry at least 3 seconds old. -/
theorem C9_log_bound_and_expiry :
    (∀ (app : App) (now : Nat) (msg : String) (lvl : LogLevel),
      app.logs.length ≤ 3 → (app.log now msg lvl).logs.length ≤ 3) ∧
    (∀ (now : Nat) (app : App), ∀ l ∈ (renderLogPanel now app).2,
      now - l.created_at < logExpiryMs) ∧
    (∀ (now : Nat) (app : App),
      (renderLogPanel now app).1.logs.length ≤ app.logs.length) := by
  refine ⟨?_, ?_, ?_⟩
  · intro app now msg lvl h
    exact logPush_length_le
      (app.logs.filter fun l => decide (now - l.created_at < logExpiryMs))
      ⟨msg, lvl, now⟩ (le_trans (List.length_filter_le _ _) h)
  · intro now app l hl
    have hl' : l ∈ app.logs.filter fun l => decide (now - l.created_at < logExpiryMs) := hl
    exact of_decide_eq_true (List.mem_filter.mp hl').2
  · intro now app
    exact List.length_filter_le _ _

/-- Witness instantiating the C9 theorem at the sample state. -/
theorem C9_witness :
    ((baseApp.log 5 "hello" LogLevel.info).logs.length ≤ 3) ∧
    (∀ l ∈ (renderLogPanel 5 baseApp).2, 5 - l.created_at < logExpiryMs) ∧
    ((renderLogPanel 5 baseApp).1.logs.length ≤ baseApp.logs.length) :=
  ⟨C9_log_bound_and_expiry.1 baseApp 5 "hello" LogLevel.info (by decide),
    C9_log_bound_and_expiry.2.1 5 baseApp,
    C9_log_bound_and_expiry.2.2 5 baseApp⟩

/-- Reduction of a toggle when no entry is focused. -/
theorem toggle_of_none (app : App) (h : app.current_entry = none) :
    app.toggle_selected_current = app := by
  unfold App.toggle_selected_current
  rw [h]

/-- Reduction of a toggle when an entry is focused. -/
theorem toggle_of_some (app : App) (e : AppEntry) (h : app.current_entry = some e) :
    app.toggle_selected_current =
      (if e.id ∈ app.selected_ids then
        { app with selected_ids := app.selected_ids.erase e.id }
       else { app with selected_ids := insert e.id app.selected_ids }) := by
  unfold App.toggle_selected_current
  rw [h]

/-- Toggling the selection never moves the cursor or changes which entry is
focused. -/
theorem toggle_current_entry (app : App) :
    app.toggle_selected_current.current_entry = app.current_entry := by
  cases h : app.current_entry with
  | none => rw [toggle_of_none app h, h]
  | some e =>
    rw [toggle_of_some app e h]
    by_cases hm : e.id ∈ app.selected_ids
    · rw [if_pos hm]
      exact h
    · rw [if_neg hm]
      exact h

/-- C10: toggling twice restores the selection set, a single toggle changes
no field other than `selected_ids`, and with no focused entry a toggle is
the identity. -/
theorem C10_toggle_involution (app : App) :
    app.toggle_selected_current.toggle_selected_current.selected_ids = app.selected_ids ∧
    (app.toggle_selected_current.entries = app.entries ∧
      app.toggle_selected_current.installed_ids = app.installed_ids ∧
      app.toggle_selected_current.selected_tab = app.selected_tab ∧
      app.toggle_selected_current.categories = app.categories ∧
      app.toggle_selected_current.selected_category = app.selected_category ∧
      app.toggle_selected_current.filtered_indices = app.filtered_indices ∧
      app.toggle_selected_current.list_state = app.list_state ∧
      app.toggle_selected_current.search_mode = app.search_mode ∧
      app.toggle_selected_current.search_input = app.search_input ∧
      app.toggle_selected_current.status = app.status ∧
      app.toggle_selected_current.platform = app.platform ∧
      app.toggle_selected_current.confirm_mode = app.confirm_mode ∧
      app.toggle_selected_current.confirm_action = app.confirm_action ∧
      app.toggle_selected_current.confirm_selected = app.confirm_selected ∧
      app.toggle_selected_current.logs = app.logs) ∧
    (app.current_entry = none → app.toggle_selected_current = app) := by
  refine ⟨?_, ?_, fun h => toggle_of_none app h⟩
  · cases h : app.current_entry with
    | none =>
      rw [toggle_of_none app h, toggle_of_none app h]
    | some e =>
      have h2 : app.toggle_selected_current.current_entry = some e := by
        rw [toggle_current_entry, h]
      by_cases hm : e.id ∈ app.selected_ids
      · have h1 := toggle_of_some app e h
        rw [if_pos hm] at h1
        have h3 := toggle_of_some app.toggle_selected_current e h2
        rw [h1] at h3
        rw [if_neg (Finset.not_mem_erase e.id app.selected_ids)] at h3
        rw [h1, h3]
        exact Finset.insert_erase hm
      · have h1 := toggle_of_some app e h
        rw [if_neg hm] at h1
        have h3 := toggle_of_some app.toggle_selected_current e h2
        rw [h1] at h3
        rw [if_pos (Finset.mem_insert_self e.id app.selected_ids)] at h3
        rw [h1, h3]
        exact Finset.erase_insert hm
  · unfold App.toggle_selected_current
    split
    · exact ⟨rfl, rfl, rfl, rfl, rfl, rfl, rfl, rfl, rfl, rfl, rfl, rfl, rfl, rfl, rfl⟩
    · split <;>
        exact ⟨rfl, rfl, rfl, rfl, rfl, rfl, rfl, rfl, rfl, rfl, rfl, rfl, rfl, rfl, rfl⟩

/-- Witness instantiating the C10 theorem at the sample state. -/
theorem C10_witness :
    baseApp.toggle_selected_current.toggle_selected_current.selected_ids
        = baseApp.selected_ids ∧
    (baseApp.toggle_selected_current.entries = baseApp.entries ∧
      baseApp.toggle_selected_current.installed_ids = baseApp.installed_ids ∧
      baseApp.toggle_selected_current.selected_tab = baseApp.selected_tab ∧
      baseApp.toggle_selected_current.categories = baseApp.categories ∧
      baseApp.toggle_selected_current.selected_category = baseApp.selected_category ∧
      baseApp.toggle_selected_current.filtered_indices = baseApp.filtered_indices ∧
      baseApp.toggle_selected_current.list_state = baseApp.list_state ∧
      baseApp.toggle_selected_current.search_mode = baseApp.search_mode ∧
      baseApp.toggle_selected_current.search_input = baseApp.search_input ∧
      baseApp.toggle_selected_current.status = baseApp.status ∧
      baseApp.toggle_selected_current.platform = baseApp.platform ∧
      baseApp.toggle_selected_current.confirm_mode = baseApp.confirm_mode ∧
      baseApp.toggle_selected_current.confirm_action = baseApp.confirm_action ∧
      baseApp.toggle_selected_current.confirm_selected = baseApp.confirm_selected ∧
      baseApp.toggle_selected_current.logs = baseApp.logs) ∧
    (baseApp.current_entry = none → baseApp.toggle_selected_current = baseApp) :=
  C10_toggle_involution baseApp

/-- Head of a front-stripped character list is never a hyphen. -/
theorem head?_dropWhile_hyphen (l : List Char) :
    ((l.dropWhile fun c => c == '-').head?) ≠ some '-' := by
  induction l with
  | nil => simp
  | cons a t ih =>
    by_cases h : a = '-'
    · subst h
      rw [List.dropWhile_cons]
      simpa using ih
    · rw [List.dropWhile_cons]
      simp [h]

/-- Tail end of a both-ends-trimmed character list is never a hyphen. -/
theorem trimHyphens_getLast (l : List Char) :
    (trimHyphens l).getLast? ≠ some '-' := by
  unfold trimHyphens
  rw [List.getLast?_reverse]
  exact head?_dropWhile_hyphen _

/-- Head of a both-ends-trimmed character list is never a hyphen. -/
theorem trimHyphens_head (l : List Char) :
    (trimHyphens l).head? ≠ some '-' := by
  unfold trimHyphens
  rw [List.head?_reverse]
  rcases hB : (l.dropWhile fun c => c == '-').reverse.dropWhile (fun c => c == '-')
    with _ | ⟨b, B⟩
  · simp
  · obtain ⟨t, ht⟩ := List.dropWhile_suffix
      (l := (l.dropWhile fun c => c == '-').reverse) (fun c => c == '-')
    rw [hB] at ht
    have h2 : (b :: B).getLast? = (l.dropWhile fun c => c == '-').head? := by
      rw [← List.getLast?_append_of_ne_nil t (List.cons_ne_nil b B), ht,
        List.getLast?_reverse]
    rw [h2]
    exact head?_dropWhile_hyphen l

/-- Trimming only removes characters. -/
theorem trimHyphens_mem (l : List Char) (c : Char) (h : c ∈ trimHyphens l) : c ∈ l := by
  unfold trimHyphens at h
  rw [List.mem_reverse] at h
  have h1 : c ∈ (l.dropWhile fun c => c == '-').reverse :=
    (List.dropWhile_sublist _).subset h
  rw [List.mem_reverse] at h1
  exact (List.dropWhile_sublist _).subset h1

/-- Every character the sanitizer emits is alphanumeric, a hyphen, or an
underscore. -/
theorem sanitizeChar_class (c : Char) :
    isAsciiAlphanum (sanitizeChar c) = true ∨ sanitizeChar c = '-' ∨ sanitizeChar c = '_' := by
  unfold sanitizeChar
  by_cases h : (isAsciiAlphanum c || c == '-' || c == '_') = true
  · rw [if_pos h]
    simp only [Bool.or_eq_true, beq_iff_eq] at h
    tauto
  · rw [if_neg h]
    exact Or.inr (Or.inl rfl)

/-- C7 (amended): the sanitizer replaces each character outside
`[A-Za-z0-9_-]` with a hyphen and trims leading/trailing hyphens, without
collapsing interior hyphen runs; the result is never empty, never starts or
ends with a hyphen, and contains only characters of the allowed class. -/
theorem C7_amended_sanitize (s : String) :
    sanitize_tmux_name s ≠ "" ∧
    (sanitize_tmux_name s).data.head? ≠ some '-' ∧
    (sanitize_tmux_name s).data.getLast? ≠ some '-' ∧
    (∀ c ∈ (sanitize_tmux_name s).data,
      isAsciiAlphanum c = true ∨ c = '-' ∨ c = '_') := by
  have hdef : sanitize_tmux_name s =
      if (trimHyphens (s.data.map sanitizeChar)).isEmpty then "app"
      else String.mk (trimHyphens (s.data.map sanitizeChar)) := rfl
  rw [hdef]
  by_cases h : (trimHyphens (s.data.map sanitizeChar)).isEmpty = true
  · rw [if_pos h]
    exact ⟨by decide, by decide, by decide, by decide⟩
  · rw [if_neg (by simpa using h)]
    have hne : trimHyphens (s.data.map sanitizeChar) ≠ [] := by
      simpa [List.isEmpty_iff] using h
    refine ⟨?_, trimHyphens_head _, trimHyphens_getLast _, ?_⟩
    · intro hcon
      apply hne
      have hd : (String.mk (trimHyphens (s.data.map sanitizeChar))).data
          = ("" : String).data := by rw [hcon]
      simpa using hd
    · intro c hc
      obtain ⟨d, _, rfl⟩ := List.mem_map.mp (trimHyphens_mem _ c hc)
      exact sanitizeChar_class d

/-- Witness instantiating the C7 amended theorem at a concrete id. -/
theorem C7_witness :
    sanitize_tmux_name "x!!y" ≠ "" ∧
    (sanitize_tmux_name "x!!y").data.head? ≠ some '-' ∧
    (sanitize_tmux_name "x!!y").data.getLast? ≠ some '-' ∧
    (∀ c ∈ (sanitize_tmux_name "x!!y").data,
      isAsciiAlphanum c = true ∨ c = '-' ∨ c = '_') :=
  C7_amended_sanitize "x!!y"

/-- Counterexample to C7 as stated: the code does not collapse consecutive
hyphens, so on the id `a..b` it produces `a--b` while the claimed collapse
behaviour would produce `a-b`. -/
theorem C7_counterexample :
    sanitize_tmux_name "a..b" = "a--b" ∧ sanitizeSpecCollapse "a..b" = "a-b" ∧
    sanitize_tmux_name "a..b" ≠ sanitizeSpecCollapse "a..b" := by
  refine ⟨by decide, by decide, by decide⟩

/-- C5 (amended): in search mode Escape merely leaves the mode, retaining
every edit made during the session; the query after Escape is the currently
edited one, exactly as after Enter, which differs only by setting the
applied-search status line. -/
theorem C5_amended_escape (app : App) (ctrl : Bool) :
    searchStep app .esc ctrl = { app with search_mode := false } ∧
    (searchStep app .esc ctrl).search_input = app.search_input ∧
    (searchStep app .esc ctrl).status = app.status ∧
    (searchStep app .enter ctrl).search_input = app.search_input ∧
    (searchStep app .enter ctrl).search_mode = (searchStep app .esc ctrl).search_mode :=
  ⟨rfl, rfl, rfl, rfl, rfl⟩

/-- Witness instantiating the C5 amended theorem at the sample search-mode
state. -/
theorem C5_witness :
    searchStep sApp .esc false = { sApp with search_mode := false } ∧
    (searchStep sApp .esc false).search_input = sApp.search_input ∧
    (searchStep sApp .esc false).status = sApp.status ∧
    (searchStep sApp .enter false).search_input = sApp.search_input ∧
    (searchStep sApp .enter false).search_mode = (searchStep sApp .esc false).search_mode :=
  C5_amended_escape sApp false

/-- Counterexample to C5 as stated: entering search mode with committed
query `""`, typing `a`, then pressing Escape leaves the query `"a"`;
the in-session edit is not discarded. -/
theorem C5_counterexample :
    sApp.search_input = "" ∧
    (searchStep (searchStep sApp (.char 'a') false) .esc false).search_mode = false ∧
    (searchStep (searchStep sApp (.char 'a') false) .esc false).search_input = "a" := by
  refine ⟨rfl, rfl, by decide⟩

/-- C6 (amended): `selected_entries` returns the subsequence of entries whose
id is selected whenever that subsequence is non-empty, falls back to the
focused entry when it is empty, and returns the empty sequence iff no
entry's id is selected and no entry is focused; in particular the original
claim holds whenever every selected id belongs to some entry. -/
theorem C6_amended_selected_entries (app : App) :
    ((app.entries.filter fun e => decide (e.id ∈ app.selected_ids)) ≠ [] →
      app.selected_entries
        = app.entries.filter fun e => decide (e.id ∈ app.selected_ids)) ∧
    ((app.entries.filter fun e => decide (e.id ∈ app.selected_ids)) = [] →
      app.selected_entries = (app.current_entry.map fun e => [e]).getD []) ∧
    (app.selected_entries = [] ↔
      ((app.entries.filter fun e => decide (e.id ∈ app.selected_ids)) = [] ∧
        app.current_entry = none)) ∧
    ((∀ i ∈ app.selected_ids, ∃ e ∈ app.entries, e.id = i) → app.selected_ids ≠ ∅ →
      app.selected_entries
        = app.entries.filter fun e => decide (e.id ∈ app.selected_ids)) := by
  have hdef : app.selected_entries =
      if (app.entries.filter fun e => decide (e.id ∈ app.selected_ids)).isEmpty then
        (match app.current_entry with
         | some e => [e]
         | none => [])
      else app.entries.filter fun e => decide (e.id ∈ app.selected_ids) := rfl
  refine ⟨?_, ?_, ?_, ?_⟩
  · intro hne
    rw [hdef, if_neg (by simpa [List.isEmpty_iff] using hne)]
  · intro hempty
    rw [hdef, if_pos (by simp [hempty])]
    cases app.current_entry <;> rfl
  · rw [hdef]
    by_cases he : (app.entries.filter fun e => decide (e.id ∈ app.selected_ids)).isEmpty
    · rw [if_pos he]
      cases hc : app.current_entry with
      | none => simpa [List.isEmpty_iff] using he
      | some e =>
        simp only [List.cons_ne_nil, false_iff, not_and]
        intro _
        simp [hc]
    · rw [if_neg he]
      simp only [List.isEmpty_iff] at he
      simp [he]
  · intro hcover hne
    obtain ⟨i, hi⟩ := Finset.nonempty_iff_ne_empty.mpr hne
    obtain ⟨e, he, rfl⟩ := hcover i hi
    have hmem : e ∈ app.entries.filter fun e => decide (e.id ∈ app.selected_ids) :=
      List.mem_filter.mpr ⟨he, by simpa using hi⟩
    rw [hdef, if_neg (by simpa [List.isEmpty_iff] using List.ne_nil_of_mem hmem)]

/-- Witness instantiating the C6 amended theorem at a state with a covered
non-empty selection, discharging its hypotheses. -/
theorem C6_witness :
    selApp.selected_entries
      = selApp.entries.filter fun e => decide (e.id ∈ selApp.selected_ids) :=
  (C6_amended_selected_entries selApp).2.2.2
    (by decide) (by decide)

/-- Counterexample to C6 as stated: with the selection set holding only an id
matching no entry, `selectedIds` is non-empty yet the result is the focused
entry, not the (empty) set of selected entries; so the fallback is keyed on
the filtered result being empty, not on `selectedIds` being empty. -/
theorem C6_counterexample :
    gApp.selected_ids ≠ ∅ ∧
    (gApp.entries.filter fun e => decide (e.id ∈ gApp.selected_ids)) = [] ∧
    gApp.selected_entries = [xEntry] ∧
    xEntry.id ∉ gApp.selected_ids := by
  refine ⟨by decide, by decide, by decide, by decide⟩

/-- Reduction of the uninstall-request branch to an explicit decision
chain. -/
theorem uninstallRequest_eq (env : Env) (app : App) :
    uninstallRequest env app =
      if app.selected_entries.isEmpty then
        app.set_status "No app selected to uninstall."
      else if app.platform = .unknown then
        app.set_status "Unknown platform. Cannot uninstall."
      else if (qualifyingTargets app).isEmpty then
        (if ¬ ((app.selected_entries.filter fun t => !app.is_installed t).map
            fun t => t.name).isEmpty then
          (app.set_status (String.intercalate ", "
              ((app.selected_entries.filter fun t => !app.is_installed t).map
                fun t => t.name) ++ " not installed.")).log env.now
            (String.intercalate ", "
              ((app.selected_entries.filter fun t => !app.is_installed t).map
                fun t => t.name) ++ " not installed") .info
        else
          app.set_status "No uninstall command defined for selected apps on this platform.")
      else
        { app with
          confirm_mode := true
          confirm_selected := true
          confirm_action := some (qualifyingTargets app)
          status := "Press Enter to confirm uninstall, Esc to cancel." } := rfl

/-- On the unknown platform no target ever qualifies for uninstall. -/
theorem qualifyingTargets_unknown (app : App) (h : app.platform = .unknown) :
    qualifyingTargets app = [] := by
  unfold qualifyingTargets
  apply List.filter_eq_nil_iff.mpr
  intro t _
  rw [h]
  simp [command_for_platform]

/-- With no resolved targets nothing qualifies for uninstall. -/
theorem qualifyingTargets_nil (app : App) (h : app.selected_entries = []) :
    qualifyingTargets app = [] := by
  unfold qualifyingTargets
  rw [h]
  rfl

/-- C3 (amended): an uninstall request enters `ConfirmPending` iff some
resolved target is installed with a non-blank uninstall command for the
active platform, and the pending list is exactly that subset; when resolved
targets exist but none qualify the state stays `Normal`, and on a known
platform the report distinguishes not-installed targets (listed by name)
from targets lacking an uninstall command, while on the unknown platform
the report is the fixed unknown-platform message. -/
theorem C3_amended_uninstall_request (env : Env) (app : App)
    (hcm : app.confirm_mode = false) :
    ((uninstallRequest env app).confirm_mode = true ↔ qualifyingTargets app ≠ []) ∧
    (qualifyingTargets app ≠ [] →
      (uninstallRequest env app).confirm_action = some (qualifyingTargets app) ∧
      (uninstallRequest env app).status
        = "Press Enter to confirm uninstall, Esc to cancel.") ∧
    (app.platform ≠ .unknown → app.selected_entries ≠ [] → qualifyingTargets app = [] →
      (uninstallRequest env app).confirm_mode = false ∧
      ((app.selected_entries.filter fun t => !app.is_installed t) ≠ [] →
        (uninstallRequest env app).status
          = String.intercalate ", "
              ((app.selected_entries.filter fun t => !app.is_installed t).map
                fun t => t.name) ++ " not installed.") ∧
      ((app.selected_entries.filter fun t => !app.is_installed t) = [] →
        (uninstallRequest env app).status
          = "No uninstall command defined for selected apps on this platform.")) := by
  by_cases h1 : app.selected_entries.isEmpty
  · have hq := qualifyingTargets_nil app (List.isEmpty_iff.mp h1)
    rw [uninstallRequest_eq, if_pos h1]
    refine ⟨by simp [App.set_status, hcm, hq], fun hne => absurd hq hne,
      fun _ hne _ => absurd (List.isEmpty_iff.mp h1) hne⟩
  · by_cases h2 : app.platform = .unknown
    · have hq := qualifyingTargets_unknown app h2
      rw [uninstallRequest_eq, if_neg h1, if_pos h2]
      refine ⟨by simp [App.set_status, hcm, hq], fun hne => absurd hq hne,
        fun hp _ _ => absurd h2 hp⟩
    · by_cases h3 : (qualifyingTargets app).isEmpty
      · have hq3 : qualifyingTargets app = [] := List.isEmpty_iff.mp h3
        rw [uninstallRequest_eq, if_neg h1, if_neg h2, if_pos h3]
        by_cases h4 : ((app.selected_entries.filter fun t => !app.is_installed t).map
            fun t => t.name).isEmpty
        · rw [if_neg (by simp [h4])]
          refine ⟨by simp [App.set_status, hcm, hq3], fun hne => absurd hq3 hne,
            fun _ _ _ => ⟨by simp [App.set_status, hcm], ?_, fun _ => rfl⟩⟩
          intro hni
          exact absurd (by simpa [List.isEmpty_iff] using h4) (by simpa using hni)
        · rw [if_pos (by simpa using h4)]
          refine ⟨by simp [App.set_status, App.log, hcm, hq3], fun hne => absurd hq3 hne,
            fun _ _ _ => ⟨by simp [App.set_status, App.log, hcm], fun _ => ?_, ?_⟩⟩
          · simp [App.set_status, App.log]
          · intro hni
            exact absurd (by simp [hni]) h4
      · have hq3 : qualifyingTargets app ≠ [] := by
          simpa [List.isEmpty_iff] using h3
        rw [uninstallRequest_eq, if_neg h1, if_neg h2, if_neg h3]
        exact ⟨by simp [hq3], fun _ => ⟨rfl, rfl⟩, fun _ _ hcon => absurd hcon hq3⟩

/-- Witness instantiating the C3 amended theorem at a state whose focused
entry is installed with a linux uninstall command. -/
theorem C3_witness :
    ((uninstallRequest baseEnv qApp).confirm_mode = true ↔ qualifyingTargets qApp ≠ []) ∧
    (qualifyingTargets qApp ≠ [] →
      (uninstallRequest baseEnv qApp).confirm_action = some (qualifyingTargets qApp) ∧
      (uninstallRequest baseEnv qApp).status
        = "Press Enter to confirm uninstall, Esc to cancel.") ∧
    (qApp.platform ≠ .unknown → qApp.selected_entries ≠ [] → qualifyingTargets qApp = [] →
      (uninstallRequest baseEnv qApp).confirm_mode = false ∧
      ((qApp.selected_entries.filter fun t => !qApp.is_installed t) ≠ [] →
        (uninstallRequest baseEnv qApp).status
          = String.intercalate ", "
              ((qApp.selected_entries.filter fun t => !qApp.is_installed t).map
                fun t => t.name) ++ " not installed.") ∧
      ((qApp.selected_entries.filter fun t => !qApp.is_installed t) = [] →
        (uninstallRequest baseEnv qApp).status
          = "No uninstall command defined for selected apps on this platform.")) :=
  C3_amended_uninstall_request baseEnv qApp rfl

/-- Counterexample to C3 as stated: on the unknown platform with an installed
resolved target, no target qualifies (there is no command for the active
platform), yet the reported reason is the fixed unknown-platform message
rather than one distinguishing not-installed targets from targets with no
uninstall command. -/
theorem C3_counterexample :
    uApp.selected_entries = [xEntry] ∧
    uApp.is_installed xEntry = true ∧
    command_for_platform xEntry.uninstall uApp.platform = none ∧
    (uninstallRequest baseEnv uApp).confirm_mode = false ∧
    (uninstallRequest baseEnv uApp).status = "Unknown platform. Cannot uninstall." ∧
    (uninstallRequest baseEnv uApp).status
      ≠ "No uninstall command defined for selected apps on this platform." := by
  refine ⟨by decide, by decide, by decide, by decide, by decide, by decide⟩

/-- C4 (amended): in the confirmation dialog the left key (and `h`) selects
the affirmative choice and the right key (and `l`) selects the negative one
— the dialog renders Yes on the left — and on entry into `ConfirmPending`
the choice defaults to affirmative; Enter on the negative choice cancels
with no command executed. -/
theorem C4_amended_confirm_keys (env : Env) (app : App)
    (hcm : app.confirm_mode = false) :
    (confirmStep env app .left).1.confirm_selected = true ∧
    (confirmStep env app (.char 'h')).1.confirm_selected = true ∧
    (confirmStep env app .right).1.confirm_selected = false ∧
    (confirmStep env app (.char 'l')).1.confirm_selected = false ∧
    (app.confirm_selected = false →
      (confirmStep env app .enter).1.status = "Uninstall cancelled." ∧
      (confirmStep env app .enter).1.confirm_mode = false ∧
      (confirmStep env app .enter).2 = []) ∧
    ((uninstallRequest env app).confirm_mode = true →
      (uninstallRequest env app).confirm_selected = true) := by
  refine ⟨rfl, rfl, rfl, rfl, ?_, ?_⟩
  · intro h
    simp [confirmStep, h]
  · intro hc
    by_cases h1 : app.selected_entries.isEmpty
    · rw [uninstallRequest_eq, if_pos h1] at hc
      simp [App.set_status, hcm] at hc
    · by_cases h2 : app.platform = .unknown
      · rw [uninstallRequest_eq, if_neg h1, if_pos h2] at hc
        simp [App.set_status, hcm] at hc
      · by_cases h3 : (qualifyingTargets app).isEmpty
        · rw [uninstallRequest_eq, if_neg h1, if_neg h2, if_pos h3] at hc
          by_cases h4 : ((app.selected_entries.filter fun t => !app.is_installed t).map
              fun t => t.name).isEmpty
          · rw [if_neg (by simp [h4])] at hc
            simp [App.set_status, hcm] at hc
          · rw [if_pos (by simpa using h4)] at hc
            simp [App.set_status, App.log, hcm] at hc
        · rw [uninstallRequest_eq, if_neg h1, if_neg h2, if_neg h3]

/-- Witness instantiating the C4 amended theorem at a normal-mode sample
state. -/
theorem C4_witness :
    (confirmStep baseEnv qApp .left).1.confirm_selected = true ∧
    (confirmStep baseEnv qApp (.char 'h')).1.confirm_selected = true ∧
    (confirmStep baseEnv qApp .right).1.confirm_selected = false ∧
    (confirmStep baseEnv qApp (.char 'l')).1.confirm_selected = false ∧
    (qApp.confirm_selected = false →
      (confirmStep baseEnv qApp .enter).1.status = "Uninstall cancelled." ∧
      (confirmStep baseEnv qApp .enter).1.confirm_mode = false ∧
      (confirmStep baseEnv qApp .enter).2 = []) ∧
    ((uninstallRequest baseEnv qApp).confirm_mode = true →
      (uninstallRequest baseEnv qApp).confirm_selected = true) :=
  C4_amended_confirm_keys baseEnv qApp rfl

/-- Counterexample to C4 as stated: from the dialog with the negative choice
selected, pressing the left key selects the affirmative choice — pressing
Enter then runs the uninstall command instead of cancelling — so the left
key is the yes-direction, not the no-direction. -/
theorem C4_counterexample :
    cApp.confirm_selected = false ∧
    (confirmStep baseEnv cApp .left).1.confirm_selected = true ∧
    (confirmStep baseEnv (confirmStep baseEnv cApp .left).1 .enter).2
      = [Effect.shell "apt remove xctl" .linux] ∧
    (confirmStep baseEnv (confirmStep baseEnv cApp .left).1 .enter).1.status
      ≠ "Uninstall cancelled." := by
  refine ⟨by decide, by decide, by decide, by decide⟩

/-- Reduction of the install branch to an explicit decision chain. -/
theorem installAction_eq (env : Env) (app : App) :
    installAction env app =
      if app.selected_entries.isEmpty then
        (app.set_status "No app selected to install.", [])
      else if app.platform = .unknown then
        (app.set_status "Unknown platform. Cannot install.", [])
      else
        (refresh_filter
          (((app.selected_entries.foldl (fun acc t => installOne env t acc)
              (app, [])).1).refresh_installed_cache env),
          (app.selected_entries.foldl (fun acc t => installOne env t acc) (app, [])).2) := rfl

/-- C8 (amended): on the unknown platform the install and uninstall actions
are disabled — they leave the installed set, the entry list, and (for
uninstall) the mode unchanged, spawn no external command, and set an
explicit status message; the launch action, by contrast, is not
platform-guarded (see the counterexample). -/
theorem C8_amended_unknown_guards (env : Env) (app : App)
    (h : app.platform = .unknown) :
    ((installAction env app).1.installed_ids = app.installed_ids ∧
      (installAction env app).1.entries = app.entries ∧
      (installAction env app).2 = [] ∧
      ((installAction env app).1.status = "No app selected to install." ∨
        (installAction env app).1.status = "Unknown platform. Cannot install.")) ∧
    ((uninstallRequest env app).installed_ids = app.installed_ids ∧
      (uninstallRequest env app).entries = app.entries ∧
      (uninstallRequest env app).confirm_mode = app.confirm_mode ∧
      ((uninstallRequest env app).status = "No app selected to uninstall." ∨
        (uninstallRequest env app).status = "Unknown platform. Cannot uninstall.")) := by
  constructor
  · by_cases h1 : app.selected_entries.isEmpty
    · rw [installAction_eq, if_pos h1]
      exact ⟨rfl, rfl, rfl, Or.inl rfl⟩
    · rw [installAction_eq, if_neg h1, if_pos h]
      exact ⟨rfl, rfl, rfl, Or.inr rfl⟩
  · by_cases h1 : app.selected_entries.isEmpty
    · rw [uninstallRequest_eq, if_pos h1]
      exact ⟨rfl, rfl, rfl, Or.inl rfl⟩
    · rw [uninstallRequest_eq, if_neg h1, if_pos h]
      exact ⟨rfl, rfl, rfl, Or.inr rfl⟩

/-- Witness instantiating the C8 amended theorem at the unknown-platform
sample state. -/
theorem C8_witness :
    ((installAction baseEnv uApp).1.installed_ids = uApp.installed_ids ∧
      (installAction baseEnv uApp).1.entries = uApp.entries ∧
      (installAction baseEnv uApp).2 = [] ∧
      ((installAction baseEnv uApp).1.status = "No app selected to install." ∨
        (installAction baseEnv uApp).1.status = "Unknown platform. Cannot install.")) ∧
    ((uninstallRequest baseEnv uApp).installed_ids = uApp.installed_ids ∧
      (uninstallRequest baseEnv uApp).entries = uApp.entries ∧
      (uninstallRequest baseEnv uApp).confirm_mode = uApp.confirm_mode ∧
      ((uninstallRequest baseEnv uApp).status = "No app selected to uninstall." ∨
        (uninstallRequest baseEnv uApp).status = "Unknown platform. Cannot uninstall.")) :=
  C8_amended_unknown_guards baseEnv uApp rfl

/-- Counterexample to C8 as stated: with the platform unknown but tmux
present and the focused entry installed, the launch key spawns a tmux
session — the launch action is not disabled on the unknown platform. -/
theorem C8_counterexample :
    uApp.platform = Platform.unknown ∧
    (normalStep baseEnv uApp (.char 'l') false).2
      = [Effect.tmuxNewSession "tuihub-x-0" "xctl"] ∧
    (normalStep baseEnv uApp (.char 'l') false).2 ≠ [] := by
  refine ⟨by decide, by decide, by decide⟩

end TuiHub
